import Mathlib

/-!
# Verification of the ephemeral-posts lifecycle manager

Shallow embedding of the lifecycle core of the ephemeral-posts server
family:

* `src/server.js` — the feature-complete variant (rooms, per-post TTL,
  JSON snapshot, uploads directory);
* `src/unnamed/part_000` — the rooms-less JSON-snapshot variant with a
  fixed one-hour TTL;
* `src/unnamed/part_001` — the minimal sqlite variant (text only).

Timestamps are milliseconds since the epoch, modelled as `Int` (so that
`now - mtime` subtraction behaves as in the source).  The uploads
directory is modelled as a list of `(name, mtime)` pairs; unlinking a
file removes every entry with that name (`fs.unlink` by path).  The
persisted snapshot is modelled explicitly: a handler that returns before
its `writeDb` call leaves the persisted `Db` unchanged even though file
unlinks performed by the cleanup phases have already happened.
-/

/-- JavaScript whitespace (ECMA-262 WhiteSpace + LineTerminator code
points), the character class removed by `String.prototype.trim`. -/
def isJsWs (c : Char) : Bool :=
  let n := c.toNat
  n = 9 || n = 10 || n = 11 || n = 12 || n = 13 || n = 32 || n = 160 ||
  n = 0x1680 || (0x2000 ≤ n && n ≤ 0x200a) || n = 0x2028 || n = 0x2029 ||
  n = 0x202f || n = 0x205f || n = 0x3000 || n = 0xfeff

/-- Trim on the character list: drop leading whitespace, then drop
trailing whitespace (via reverse). -/
def jsTrimList (l : List Char) : List Char :=
  ((l.dropWhile isJsWs).reverse.dropWhile isJsWs).reverse

/-- Model of JavaScript `String.prototype.trim`. -/
def jsTrim (s : String) : String := ⟨jsTrimList s.data⟩

/-! ## Configuration constants (src/server.js lines 19-30) -/

def MAX_TTL_MINUTES : Int := 60
def MIN_TTL_MINUTES : Int := 1
def ONE_MINUTE : Int := 60 * 1000
def ONE_HOUR : Int := 60 * ONE_MINUTE
def ROOM_EMPTY_GRACE_MS : Int := 60 * 1000

/-! ## Data model (db.json structure, src/server.js lines 68-74) -/

/-- A post record.  `image_url` holds the public URL (`/uploads/<name>`
or absent), `image_path` the on-disk path, modelled as the bare filename
since the uploads directory is fixed.  In the `part_000` variant posts
carry no `room_id`; such posts are embedded with `room_id = none`. -/
structure Post where
  id : String
  room_id : Option String
  content : String
  image_url : Option String
  image_path : Option String
  delete_token : String
  created_at : Int
  expires_at : Int
deriving DecidableEq

structure Room where
  id : String
  label : Option String
  created_at : Int
  last_active_at : Option Int
deriving DecidableEq

structure Db where
  posts : List Post
  rooms : List Room
deriving DecidableEq

/-- One file in the uploads directory: name and `mtimeMs`. -/
structure MFile where
  name : String
  mtime : Int
deriving DecidableEq

/-- Combined state: persisted snapshot plus the uploads directory. -/
structure St where
  db : Db
  files : List MFile
deriving DecidableEq

/-! ## File deletion helpers (src/server.js lines 87-108) -/

def uploadsUrlBase : String := "/uploads/"

/-- `String.prototype.startsWith`, stated over the character lists (the
stock `String.startsWith` does not reduce in the kernel). -/
def strStarts (s pre : String) : Bool := pre.data.isPrefixOf s.data

/-- `filePathFromImageUrl` (lines 98-103): `if (!image_url) return null;`
then the URL must start with `/uploads/`; the `replace` of the leading
occurrence is dropping the base, since the URL was just checked to start
with it. -/
def filePathFromImageUrl : Option String → Option String
  | none => none
  | some u =>
    if u = "" then none
    else if strStarts u uploadsUrlBase then some (u.drop uploadsUrlBase.length)
    else none

/-- The path `deletePostImage` (lines 105-108) unlinks:
`post.image_path || filePathFromImageUrl(post.image_url)` — the `||`
also falls through on an empty-string path (JS falsiness). -/
def postImageTarget (p : Post) : Option String :=
  match p.image_path with
  | some q => if q = "" then filePathFromImageUrl p.image_url else some q
  | none => filePathFromImageUrl p.image_url

/-- `safeUnlink` (lines 90-96): remove the file; missing files are not
an error (hence: remove every entry with that name, possibly none). -/
def safeUnlink (files : List MFile) (name : String) : List MFile :=
  files.filter (fun f => f.name ≠ name)

def deletePostImage (files : List MFile) (p : Post) : List MFile :=
  match postImageTarget p with
  | some n => safeUnlink files n
  | none => files

/-- `if (file?.path) await safeUnlink(file.path)` in the post handler:
unlink the freshly uploaded file, skipping a falsy path. -/
def unlinkOptFile (files : List MFile) : Option String → List MFile
  | none => files
  | some n => if n = "" then files else safeUnlink files n

/-! ## Expiry cleanup (src/server.js lines 110-123; identical to
`cleanupExpired` in part_000 lines 92-102) -/

/-- `cleanupExpiredPosts`: posts with `expires_at <= now` are removed
and their images unlinked; posts with `expires_at > now` are kept. -/
def cleanupExpiredPosts (s : St) (now : Int) : St :=
  let expired := s.db.posts.filter (fun p => p.expires_at ≤ now)
  let kept := s.db.posts.filter (fun p => p.expires_at > now)
  ⟨⟨kept, s.db.rooms⟩, expired.foldl deletePostImage s.files⟩

/-! ## Rooms (src/server.js lines 165-195) -/

/-- `r.last_active_at || r.created_at` — JS falsiness also sends a zero
timestamp to the fallback. -/
def effLastActive (r : Room) : Int :=
  match r.last_active_at with
  | some t => if t = 0 then r.created_at else t
  | none => r.created_at

/-- The removal condition of `cleanupEmptyRooms` (line 190):
`(r.last_active_at || r.created_at) + ROOM_EMPTY_GRACE_MS < now`.
Note the strict `<`. -/
def roomDead (now : Int) (r : Room) : Bool :=
  effLastActive r + ROOM_EMPTY_GRACE_MS < now

def getRoomById (db : Db) (roomId : String) : Option Room :=
  db.rooms.find? (fun r => r.id = roomId)

/-- `deleteRoomAndItsPosts` (lines 175-185): unlink the images of every
post in the room, drop those posts, drop every room with that id. -/
def deleteRoomAndItsPosts (s : St) (roomId : String) : St :=
  let inRoom := s.db.posts.filter (fun p => p.room_id = some roomId)
  let files := inRoom.foldl deletePostImage s.files
  ⟨⟨s.db.posts.filter (fun p => p.room_id ≠ some roomId),
    s.db.rooms.filter (fun r => r.id ≠ roomId)⟩, files⟩

/-- `cleanupEmptyRooms` (lines 187-195): collect the dead rooms, then
cascade-delete each. -/
def cleanupEmptyRooms (s : St) (now : Int) : St :=
  let toDelete := s.db.rooms.filter (roomDead now)
  toDelete.foldl (fun acc r => deleteRoomAndItsPosts acc r.id) s

/-! ## Orphan sweep (src/server.js lines 125-163; textually the same
function in part_000 lines 104-153) -/

/-- The `referenced` set (lines 137-141): filenames of posts whose
`image_url` starts with `/uploads/`; `.filter(Boolean)` also drops an
empty result. -/
def referencedNames (posts : List Post) : List String :=
  posts.filterMap (fun p =>
    match p.image_url with
    | none => none
    | some u =>
      if u = "" then none
      else if strStarts u uploadsUrlBase then
        let n := u.drop uploadsUrlBase.length
        if n = "" then none else some n
      else none)

/-- Whether the sweep loop (lines 145-162) unlinks a file: empty and
dot-prefixed names are skipped; otherwise delete iff unreferenced and
strictly older than `ONE_HOUR`. -/
def sweepDeletes (refd : List String) (now : Int) (f : MFile) : Bool :=
  if f.name = "" then false
  else if strStarts f.name "." then false
  else if f.name ∈ refd then false
  else now - f.mtime > ONE_HOUR

def sweepOrphanUploads (s : St) (now : Int) : St :=
  ⟨s.db, s.files.filter (fun f => !(sweepDeletes (referencedNames s.db.posts) now f))⟩

/-! ## Maintenance (src/server.js lines 197-206; part_000 lines 155-163) -/

/-- `runMaintenance` of src/server.js: expiry cleanup, room cascade,
orphan sweep, persist. -/
def runMaintenance (s : St) (now : Int) : St :=
  sweepOrphanUploads (cleanupEmptyRooms (cleanupExpiredPosts s now) now) now

/-- `runMaintenance` of part_000 (no rooms): expiry cleanup then orphan
sweep. -/
def runMaintenanceNR (s : St) (now : Int) : St :=
  sweepOrphanUploads (cleanupExpiredPosts s now) now

/-! ## API surface -/

inductive ApiError where
  | notFound (msg : String)
  | forbidden (msg : String)
  | validation (msg : String)
deriving DecidableEq

/-- The public projection returned by `GET /posts` (server.js
lines 306-310): id, content, image_url, created_at, expires_at. -/
structure PublicPost where
  id : String
  content : String
  image_url : Option String
  created_at : Int
  expires_at : Int
deriving DecidableEq

def toPublic (p : Post) : PublicPost :=
  ⟨p.id, p.content, p.image_url, p.created_at, p.expires_at⟩

/-- `!p.room_id` in the main-feed filter of `GET /posts`: true for a
null and for an empty-string `room_id`. -/
def roomIdFalsy : Option String → Bool
  | none => true
  | some s => s = ""

/-- `GET /posts` (server.js lines 290-311).  The handler persists the
cleaned snapshot (`writeDb` on line 296) before validating `roomId`, so
the cleaned state is returned on both branches. -/
def listPosts (s : St) (roomId : Option String) (now : Int) :
    Except ApiError (List PublicPost) × St :=
  let s1 := cleanupEmptyRooms (cleanupExpiredPosts s now) now
  match roomId with
  | some rid =>
    if (getRoomById s1.db rid).isSome then
      (Except.ok ((s1.db.posts.filter (fun p => p.room_id = some rid)).map toPublic), s1)
    else (Except.error (ApiError.notFound "Room not found"), s1)
  | none =>
    (Except.ok ((s1.db.posts.filter (fun p => roomIdFalsy p.room_id)).map toPublic), s1)

/-- `GET /posts` of the sqlite variant (part_001 lines 61-70):
`SELECT ... WHERE expires_at > ?`.  The `ORDER BY created_at DESC`
clause only reorders rows and is not modelled; every claim below is
about row membership, which sorting preserves. -/
structure SqlPost where
  id : String
  content : String
  delete_token : String
  created_at : Int
  expires_at : Int
deriving DecidableEq

def sqlActivePosts (posts : List SqlPost) (now : Int) : List SqlPost :=
  posts.filter (fun p => p.expires_at > now)

/-- `DELETE /posts/:id` of the sqlite variant (part_001 lines 73-96):
token is checked before expiry, and expiry uses strict `now >
expires_at`. -/
def sqlDeletePost (posts : List SqlPost) (id token : String) (now : Int) :
    Except ApiError Unit × List SqlPost :=
  match posts.find? (fun p => p.id = id) with
  | none => (Except.error (ApiError.notFound "Not found"), posts)
  | some row =>
    if row.delete_token ≠ token then
      (Except.error (ApiError.forbidden "Invalid token"), posts)
    else if now > row.expires_at then
      (Except.error (ApiError.forbidden "Post expired"), posts)
    else (Except.ok (), posts.filter (fun p => p.id ≠ id))

/-- Remove the element `splice(index, 1)` removes after
`findIndex((p) => p.id === id)`: the first post with that id. -/
def removeFirstById (posts : List Post) (id : String) : List Post :=
  match posts with
  | [] => []
  | p :: ps => if p.id = id then ps else p :: removeFirstById ps id

/-- `DELETE /posts/:id` (server.js lines 397-417).  On the 404 and 403
paths the handler returns before `writeDb`, so the persisted snapshot is
the pre-call one, while the unlinks done by the cleanup phases have
already happened on disk. -/
def deletePost (s : St) (id token : String) (now : Int) :
    Except ApiError Unit × St :=
  let s1 := cleanupEmptyRooms (cleanupExpiredPosts s now) now
  match s1.db.posts.find? (fun p => p.id = id) with
  | none => (Except.error (ApiError.notFound "Not found"), ⟨s.db, s1.files⟩)
  | some p =>
    if p.delete_token ≠ token then
      (Except.error (ApiError.forbidden "Invalid token"), ⟨s.db, s1.files⟩)
    else
      (Except.ok (),
        ⟨⟨removeFirstById s1.db.posts id, s1.db.rooms⟩, deletePostImage s1.files p⟩)

/-- `DELETE /posts/:id` of part_000 (lines 264-284): same handler
without the room cascade. -/
def deletePostNR (s : St) (id token : String) (now : Int) :
    Except ApiError Unit × St :=
  let s1 := cleanupExpiredPosts s now
  match s1.db.posts.find? (fun p => p.id = id) with
  | none => (Except.error (ApiError.notFound "Not found"), ⟨s.db, s1.files⟩)
  | some p =>
    if p.delete_token ≠ token then
      (Except.error (ApiError.forbidden "Invalid token"), ⟨s.db, s1.files⟩)
    else
      (Except.ok (),
        ⟨⟨removeFirstById s1.db.posts id, s1.db.rooms⟩, deletePostImage s1.files p⟩)

/-! ## Room heartbeat (src/server.js lines 266-281) -/

/-- Mutating `room.last_active_at` on the object `find` returned:
update the first room with that id. -/
def setLastActive (rooms : List Room) (id : String) (now : Int) : List Room :=
  match rooms with
  | [] => []
  | r :: rs =>
    if r.id = id then { r with last_active_at := some now } :: rs
    else r :: setLastActive rs id now

/-- `POST /rooms/:id/ping`: look the room up (presence only — no
deadness check), touch `last_active_at`, persist.  No cleanup runs. -/
def heartbeatRoom (s : St) (id : String) (now : Int) :
    Except ApiError Unit × St :=
  match getRoomById s.db id with
  | none => (Except.error (ApiError.notFound "Room not found"), s)
  | some _ => (Except.ok (), ⟨⟨s.db.posts, setLastActive s.db.rooms id now⟩, s.files⟩)

/-! ## Post creation (src/server.js lines 313-392) -/

/-- The numeric state of the `ttlMinutes` field after the JS coercions
`ttlRaw ? Number(ttlRaw) : MAX_TTL`: absent/empty (default applies),
non-finite (`Number.isFinite` fails), or a finite value.  Finite values
are modelled as integers; no claim depends on fractional TTLs. -/
inductive TtlField where
  | absent
  | nonFinite
  | num (n : Int)
deriving DecidableEq

/-- `!Number.isFinite(ttl) || ttl < MIN || ttl > MAX` → reject;
otherwise the effective TTL. -/
def resolveTtl : TtlField → Option Int
  | .absent => some MAX_TTL_MINUTES
  | .nonFinite => none
  | .num n =>
    if n < MIN_TTL_MINUTES then none
    else if n > MAX_TTL_MINUTES then none
    else some n

/-- `req.body.roomId ? String(req.body.roomId).trim() : ""`, then
`roomId = roomIdRaw ? roomIdRaw : null`. -/
def resolveRoomId : Option String → Option String
  | none => none
  | some raw => let t := jsTrim raw; if t = "" then none else some t

/-- One `POST /posts` request: raw body fields plus the file multer has
already written into the uploads directory (its generated name). -/
structure CreateInput where
  content : String
  roomId : Option String
  ttl : TtlField
  file : Option String
deriving DecidableEq

structure CreateResp where
  id : String
  deleteToken : String
  expiresAt : Int
deriving DecidableEq

/-- `POST /posts` (server.js lines 321-392).  `newId`/`newToken` stand
for the two `nanoid` draws.  Handlers that return before `writeDb` leave
the persisted snapshot unchanged. -/
def createPost (s : St) (inp : CreateInput) (now : Int) (newId newToken : String) :
    Except ApiError CreateResp × St :=
  let content := jsTrim inp.content
  if content = "" ∧ inp.file = none then
    (Except.error (ApiError.validation "Post must include text and/or an image."), s)
  else if content.length > 500 then
    (Except.error (ApiError.validation "Text is too long (max 500 chars)."),
      ⟨s.db, unlinkOptFile s.files inp.file⟩)
  else
    match resolveTtl inp.ttl with
    | none =>
      (Except.error (ApiError.validation "ttlMinutes must be between 1 and 60."),
        ⟨s.db, unlinkOptFile s.files inp.file⟩)
    | some ttl =>
      let s1 := cleanupEmptyRooms (cleanupExpiredPosts s now) now
      match resolveRoomId inp.roomId with
      | some rid =>
        match getRoomById s1.db rid with
        | none =>
          (Except.error (ApiError.notFound "Room not found"),
            ⟨s.db, unlinkOptFile s1.files inp.file⟩)
        | some _ =>
          let post : Post :=
            ⟨newId, some rid, content, inp.file.map (fun n => uploadsUrlBase ++ n),
              inp.file, newToken, now, now + ttl * ONE_MINUTE⟩
          (Except.ok ⟨newId, newToken, now + ttl * ONE_MINUTE⟩,
            ⟨⟨post :: s1.db.posts, setLastActive s1.db.rooms rid now⟩, s1.files⟩)
      | none =>
        let post : Post :=
          ⟨newId, none, content, inp.file.map (fun n => uploadsUrlBase ++ n),
            inp.file, newToken, now, now + ttl * ONE_MINUTE⟩
        (Except.ok ⟨newId, newToken, now + ttl * ONE_MINUTE⟩,
          ⟨⟨post :: s1.db.posts, s1.db.rooms⟩, s1.files⟩)

/-- `POST /posts` of part_000 (lines 201-250): no rooms, no TTL field,
fixed one-hour expiry, expiry cleanup before the write. -/
def createPostNR (s : St) (content0 : String) (file : Option String) (now : Int)
    (newId newToken : String) : Except ApiError CreateResp × St :=
  let content := jsTrim content0
  if content = "" ∧ file = none then
    (Except.error (ApiError.validation "Post must include text and/or an image."), s)
  else if content.length > 500 then
    (Except.error (ApiError.validation "Text is too long (max 500 chars)."),
      ⟨s.db, unlinkOptFile s.files file⟩)
  else
    let s1 := cleanupExpiredPosts s now
    let post : Post :=
      ⟨newId, none, content, file.map (fun n => uploadsUrlBase ++ n),
        file, newToken, now, now + ONE_HOUR⟩
    (Except.ok ⟨newId, newToken, now + ONE_HOUR⟩,
      ⟨⟨post :: s1.db.posts, s1.db.rooms⟩, s1.files⟩)

/-! ## Helper lemmas: image unlinking -/

theorem mem_of_mem_deletePostImage {files : List MFile} {p : Post} {f : MFile}
    (h : f ∈ deletePostImage files p) : f ∈ files := by
  unfold deletePostImage at h
  cases hpt : postImageTarget p with
  | none => rw [hpt] at h; exact h
  | some n => rw [hpt] at h; exact List.mem_of_mem_filter h

theorem deletePostImage_keep {files : List MFile} {p : Post} {f : MFile}
    (hf : f ∈ files) (h : postImageTarget p ≠ some f.name) :
    f ∈ deletePostImage files p := by
  unfold deletePostImage
  cases hpt : postImageTarget p with
  | none => exact hf
  | some n =>
    unfold safeUnlink
    refine List.mem_filter.mpr ⟨hf, ?_⟩
    simp only [decide_eq_true_eq]
    intro he
    exact h (by rw [hpt, he])

theorem deletePostImage_kill {files : List MFile} {p : Post} {n : String}
    (h : postImageTarget p = some n) :
    ∀ f ∈ deletePostImage files p, f.name ≠ n := by
  intro f hf
  unfold deletePostImage at hf
  rw [h] at hf
  unfold safeUnlink at hf
  have := (List.mem_filter.mp hf).2
  simpa using this

theorem mem_of_mem_foldl_dpi {M : List Post} :
    ∀ {files : List MFile} {f : MFile},
      f ∈ M.foldl deletePostImage files → f ∈ files := by
  induction M with
  | nil => intro files f h; exact h
  | cons q M ih =>
    intro files f h
    exact mem_of_mem_deletePostImage (ih h)

theorem foldl_dpi_keep {M : List Post} :
    ∀ {files : List MFile} {f : MFile}, f ∈ files →
      (∀ q ∈ M, postImageTarget q ≠ some f.name) →
      f ∈ M.foldl deletePostImage files := by
  induction M with
  | nil => intro files f hf _; exact hf
  | cons q M ih =>
    intro files f hf h
    exact ih (deletePostImage_keep hf (h q (by simp)))
      (fun q2 hq2 => h q2 (by simp [hq2]))

theorem foldl_dpi_kill {M : List Post} :
    ∀ {files : List MFile} {p : Post} {n : String}, p ∈ M →
      postImageTarget p = some n →
      ∀ f ∈ M.foldl deletePostImage files, f.name ≠ n := by
  induction M with
  | nil => intro files p n hp; exact absurd hp (by simp)
  | cons q M ih =>
    intro files p n hp ht f hf
    rcases List.mem_cons.mp hp with he | hm
    · subst he
      exact fun hn =>
        deletePostImage_kill ht f (mem_of_mem_foldl_dpi hf) hn
    · exact ih hm ht f hf

/-! ## Helper lemmas: room cascade -/

theorem drp_posts_mem {s : St} {rid : String} {p : Post} :
    p ∈ (deleteRoomAndItsPosts s rid).db.posts ↔
      p ∈ s.db.posts ∧ p.room_id ≠ some rid := by
  unfold deleteRoomAndItsPosts
  simp [List.mem_filter]

theorem drp_rooms_mem {s : St} {rid : String} {r : Room} :
    r ∈ (deleteRoomAndItsPosts s rid).db.rooms ↔
      r ∈ s.db.rooms ∧ r.id ≠ rid := by
  unfold deleteRoomAndItsPosts
  simp [List.mem_filter]

theorem drp_files_sub {s : St} {rid : String} {f : MFile}
    (h : f ∈ (deleteRoomAndItsPosts s rid).files) : f ∈ s.files :=
  mem_of_mem_foldl_dpi h

theorem drp_files_keep {s : St} {rid : String} {f : MFile}
    (hf : f ∈ s.files)
    (h : ∀ q ∈ s.db.posts, q.room_id = some rid → postImageTarget q ≠ some f.name) :
    f ∈ (deleteRoomAndItsPosts s rid).files := by
  unfold deleteRoomAndItsPosts
  refine foldl_dpi_keep hf ?_
  intro q hq
  have hm := List.mem_filter.mp hq
  exact h q hm.1 (by simpa using hm.2)

theorem drp_files_kill {s : St} {rid : String} {p : Post} {n : String}
    (hp : p ∈ s.db.posts) (hr : p.room_id = some rid)
    (ht : postImageTarget p = some n) :
    ∀ f ∈ (deleteRoomAndItsPosts s rid).files, f.name ≠ n := by
  unfold deleteRoomAndItsPosts
  refine foldl_dpi_kill ?_ ht
  exact List.mem_filter.mpr ⟨hp, by simp [hr]⟩

/-- The fold performed by `cleanupEmptyRooms`. -/
def roomsFold (L : List Room) (s : St) : St :=
  L.foldl (fun acc r => deleteRoomAndItsPosts acc r.id) s

theorem cleanupEmptyRooms_eq_roomsFold (s : St) (now : Int) :
    cleanupEmptyRooms s now = roomsFold (s.db.rooms.filter (roomDead now)) s := rfl

theorem roomsFold_rooms_mem {L : List Room} :
    ∀ {s : St} {r : Room}, r ∈ (roomsFold L s).db.rooms →
      r ∈ s.db.rooms ∧ ∀ x ∈ L, r.id ≠ x.id := by
  induction L with
  | nil => intro s r h; exact ⟨h, by simp⟩
  | cons x L ih =>
    intro s r h
    rcases ih h with ⟨hm, hall⟩
    rcases drp_rooms_mem.mp hm with ⟨hm2, hne⟩
    refine ⟨hm2, ?_⟩
    intro y hy
    rcases List.mem_cons.mp hy with he | hm3
    · subst he; exact hne
    · exact hall y hm3

theorem roomsFold_posts_mem {L : List Room} :
    ∀ {s : St} {p : Post}, p ∈ (roomsFold L s).db.posts →
      p ∈ s.db.posts ∧ ∀ x ∈ L, p.room_id ≠ some x.id := by
  induction L with
  | nil => intro s p h; exact ⟨h, by simp⟩
  | cons x L ih =>
    intro s p h
    rcases ih h with ⟨hm, hall⟩
    rcases drp_posts_mem.mp hm with ⟨hm2, hne⟩
    refine ⟨hm2, ?_⟩
    intro y hy
    rcases List.mem_cons.mp hy with he | hm3
    · subst he; exact hne
    · exact hall y hm3

theorem roomsFold_files_sub {L : List Room} :
    ∀ {s : St} {f : MFile}, f ∈ (roomsFold L s).files → f ∈ s.files := by
  induction L with
  | nil => intro s f h; exact h
  | cons x L ih => intro s f h; exact drp_files_sub (ih h)

theorem roomsFold_posts_keep {L : List Room} :
    ∀ {s : St} {p : Post}, p ∈ s.db.posts →
      (∀ x ∈ L, p.room_id ≠ some x.id) → p ∈ (roomsFold L s).db.posts := by
  induction L with
  | nil => intro s p hp _; exact hp
  | cons x L ih =>
    intro s p hp h
    exact ih (drp_posts_mem.mpr ⟨hp, h x (by simp)⟩)
      (fun y hy => h y (by simp [hy]))

theorem roomsFold_rooms_keep {L : List Room} :
    ∀ {s : St} {r : Room}, r ∈ s.db.rooms →
      (∀ x ∈ L, r.id ≠ x.id) → r ∈ (roomsFold L s).db.rooms := by
  induction L with
  | nil => intro s r hr _; exact hr
  | cons x L ih =>
    intro s r hr h
    exact ih (drp_rooms_mem.mpr ⟨hr, h x (by simp)⟩)
      (fun y hy => h y (by simp [hy]))

theorem roomsFold_files_keep {L : List Room} :
    ∀ {s : St} {f : MFile}, f ∈ s.files →
      (∀ q ∈ s.db.posts, postImageTarget q = some f.name →
        ∀ x ∈ L, q.room_id ≠ some x.id) →
      f ∈ (roomsFold L s).files := by
  induction L with
  | nil => intro s f hf _; exact hf
  | cons x L ih =>
    intro s f hf h
    refine ih (drp_files_keep hf ?_) ?_
    · intro q hq hrid ht
      exact h q hq ht x (by simp) hrid
    · intro q hq ht y hy
      have hq2 := drp_posts_mem.mp hq
      exact h q hq2.1 ht y (by simp [hy])

theorem roomsFold_files_kill {L : List Room} :
    ∀ {s : St} {rid : String} {p : Post} {n : String},
      (∃ x ∈ L, x.id = rid) → p ∈ s.db.posts → p.room_id = some rid →
      postImageTarget p = some n →
      ∀ f ∈ (roomsFold L s).files, f.name ≠ n := by
  induction L with
  | nil => intro s rid p n hex; exact absurd hex (by simp)
  | cons x L ih =>
    intro s rid p n hex hp hr ht f hf
    by_cases hx : x.id = rid
    · subst hx
      have hgone : ∀ g ∈ (deleteRoomAndItsPosts s x.id).files, g.name ≠ n :=
        drp_files_kill hp hr ht
      exact hgone f (roomsFold_files_sub hf)
    · rcases hex with ⟨y, hy, hyid⟩
      rcases List.mem_cons.mp hy with he | hm
      · exact absurd (he ▸ hyid) hx
      · refine ih ⟨y, hm, hyid⟩ ?_ hr ht f hf
        refine drp_posts_mem.mpr ⟨hp, ?_⟩
        rw [hr]
        intro hc
        injection hc with hc2
        exact hx hc2.symm

/-! ## Helper lemmas: the cleanup phases -/

theorem cer_rooms_mem {s : St} {now : Int} {r : Room}
    (h : r ∈ (cleanupEmptyRooms s now).db.rooms) :
    r ∈ s.db.rooms ∧ roomDead now r = false := by
  rw [cleanupEmptyRooms_eq_roomsFold] at h
  rcases roomsFold_rooms_mem h with ⟨hm, hall⟩
  refine ⟨hm, ?_⟩
  by_contra hdead
  have hd : roomDead now r = true := by
    cases hde : roomDead now r with
    | true => rfl
    | false => exact absurd hde hdead
  exact hall r (List.mem_filter.mpr ⟨hm, hd⟩) rfl

theorem cer_posts_sub {s : St} {now : Int} {p : Post}
    (h : p ∈ (cleanupEmptyRooms s now).db.posts) : p ∈ s.db.posts := by
  rw [cleanupEmptyRooms_eq_roomsFold] at h
  exact (roomsFold_posts_mem h).1

theorem cer_files_sub {s : St} {now : Int} {f : MFile}
    (h : f ∈ (cleanupEmptyRooms s now).files) : f ∈ s.files := by
  rw [cleanupEmptyRooms_eq_roomsFold] at h
  exact roomsFold_files_sub h

theorem cer_rooms_dead_gone {s : St} {now : Int} {r : Room}
    (hr : r ∈ s.db.rooms) (hd : roomDead now r = true) :
    ∀ r2 ∈ (cleanupEmptyRooms s now).db.rooms, r2.id ≠ r.id := by
  intro r2 h2
  rw [cleanupEmptyRooms_eq_roomsFold] at h2
  exact (roomsFold_rooms_mem h2).2 r (List.mem_filter.mpr ⟨hr, hd⟩)

theorem cer_posts_dead_gone {s : St} {now : Int} {r : Room}
    (hr : r ∈ s.db.rooms) (hd : roomDead now r = true) :
    ∀ p ∈ (cleanupEmptyRooms s now).db.posts, p.room_id ≠ some r.id := by
  intro p hp
  rw [cleanupEmptyRooms_eq_roomsFold] at hp
  exact (roomsFold_posts_mem hp).2 r (List.mem_filter.mpr ⟨hr, hd⟩)

theorem cer_files_dead_kill {s : St} {now : Int} {r : Room} {p : Post} {n : String}
    (hr : r ∈ s.db.rooms) (hd : roomDead now r = true)
    (hp : p ∈ s.db.posts) (hrid : p.room_id = some r.id)
    (ht : postImageTarget p = some n) :
    ∀ f ∈ (cleanupEmptyRooms s now).files, f.name ≠ n := by
  rw [cleanupEmptyRooms_eq_roomsFold]
  exact roomsFold_files_kill ⟨r, List.mem_filter.mpr ⟨hr, hd⟩, rfl⟩ hp hrid ht

theorem cer_posts_keep {s : St} {now : Int} {p : Post}
    (hp : p ∈ s.db.posts)
    (h : ∀ x ∈ s.db.rooms, roomDead now x = true → p.room_id ≠ some x.id) :
    p ∈ (cleanupEmptyRooms s now).db.posts := by
  rw [cleanupEmptyRooms_eq_roomsFold]
  refine roomsFold_posts_keep hp ?_
  intro x hx
  have hm := List.mem_filter.mp hx
  exact h x hm.1 hm.2

theorem cer_rooms_keep {s : St} {now : Int} {r : Room}
    (hr : r ∈ s.db.rooms)
    (h : ∀ x ∈ s.db.rooms, roomDead now x = true → r.id ≠ x.id) :
    r ∈ (cleanupEmptyRooms s now).db.rooms := by
  rw [cleanupEmptyRooms_eq_roomsFold]
  refine roomsFold_rooms_keep hr ?_
  intro x hx
  have hm := List.mem_filter.mp hx
  exact h x hm.1 hm.2

theorem cer_files_keep {s : St} {now : Int} {f : MFile}
    (hf : f ∈ s.files)
    (h : ∀ q ∈ s.db.posts, postImageTarget q = some f.name →
      ∀ x ∈ s.db.rooms, roomDead now x = true → q.room_id ≠ some x.id) :
    f ∈ (cleanupEmptyRooms s now).files := by
  rw [cleanupEmptyRooms_eq_roomsFold]
  refine roomsFold_files_keep hf ?_
  intro q hq ht x hx
  have hm := List.mem_filter.mp hx
  exact h q hq ht x hm.1 hm.2

theorem cer_id {s : St} {now : Int}
    (h : ∀ r ∈ s.db.rooms, roomDead now r = false) :
    cleanupEmptyRooms s now = s := by
  rw [cleanupEmptyRooms_eq_roomsFold]
  have he : s.db.rooms.filter (roomDead now) = [] := by
    rw [List.filter_eq_nil_iff]
    intro r hr
    simp [h r hr]
  rw [he]
  rfl

theorem cexp_posts (s : St) (now : Int) :
    (cleanupExpiredPosts s now).db.posts
      = s.db.posts.filter (fun p => p.expires_at > now) := rfl

theorem cexp_rooms (s : St) (now : Int) :
    (cleanupExpiredPosts s now).db.rooms = s.db.rooms := rfl

theorem cexp_posts_mem {s : St} {now : Int} {p : Post} :
    p ∈ (cleanupExpiredPosts s now).db.posts ↔
      p ∈ s.db.posts ∧ p.expires_at > now := by
  rw [cexp_posts]
  simp [List.mem_filter]

theorem cexp_files_sub {s : St} {now : Int} {f : MFile}
    (h : f ∈ (cleanupExpiredPosts s now).files) : f ∈ s.files :=
  mem_of_mem_foldl_dpi h

theorem cexp_files_keep {s : St} {now : Int} {f : MFile}
    (hf : f ∈ s.files)
    (h : ∀ q ∈ s.db.posts, q.expires_at ≤ now → postImageTarget q ≠ some f.name) :
    f ∈ (cleanupExpiredPosts s now).files := by
  refine foldl_dpi_keep hf ?_
  intro q hq
  have hm := List.mem_filter.mp hq
  exact h q hm.1 (by simpa using hm.2)

theorem cexp_files_kill {s : St} {now : Int} {p : Post} {n : String}
    (hp : p ∈ s.db.posts) (he : p.expires_at ≤ now)
    (ht : postImageTarget p = some n) :
    ∀ f ∈ (cleanupExpiredPosts s now).files, f.name ≠ n := by
  refine foldl_dpi_kill ?_ ht
  exact List.mem_filter.mpr ⟨hp, by simpa using he⟩

theorem cexp_id {s : St} {now : Int}
    (h : ∀ p ∈ s.db.posts, p.expires_at > now) :
    cleanupExpiredPosts s now = s := by
  unfold cleanupExpiredPosts
  have h1 : s.db.posts.filter (fun p => p.expires_at ≤ now) = [] := by
    rw [List.filter_eq_nil_iff]
    intro p hp
    simpa using not_le.mpr (h p hp)
  have h2 : s.db.posts.filter (fun p => p.expires_at > now) = s.db.posts := by
    rw [List.filter_eq_self]
    intro p hp
    simpa using h p hp
  rw [h1, h2]
  rfl

theorem sweep_db (s : St) (now : Int) : (sweepOrphanUploads s now).db = s.db := rfl

theorem sweep_files_mem {s : St} {now : Int} {f : MFile} :
    f ∈ (sweepOrphanUploads s now).files ↔
      f ∈ s.files ∧ sweepDeletes (referencedNames s.db.posts) now f = false := by
  unfold sweepOrphanUploads
  simp [List.mem_filter]

theorem filter_self_idem {α : Type} (p : α → Bool) (l : List α) :
    (l.filter p).filter p = l.filter p :=
  List.filter_eq_self.mpr (fun _ ha => List.of_mem_filter ha)

theorem sweep_idem (s : St) (now : Int) :
    sweepOrphanUploads (sweepOrphanUploads s now) now = sweepOrphanUploads s now := by
  unfold sweepOrphanUploads
  dsimp only
  rw [filter_self_idem]

/-- **C2.** The maintenance pass is idempotent: at a fixed reference
timestamp `now`, a second `runMaintenance` (and, in the rooms-less
part_000 variant, a second `runMaintenanceNR`) applied with no
intervening mutation returns the state of the first run unchanged — in
particular the second run removes no posts, no rooms, and deletes no
files. -/
theorem claim_C2_maintenance_idempotent (s : St) (now : Int) :
    runMaintenance (runMaintenance s now) now = runMaintenance s now ∧
    runMaintenanceNR (runMaintenanceNR s now) now = runMaintenanceNR s now := by
  constructor
  · have hA : cleanupExpiredPosts (runMaintenance s now) now = runMaintenance s now := by
      apply cexp_id
      intro p hp
      have hp2 : p ∈ (cleanupEmptyRooms (cleanupExpiredPosts s now) now).db.posts := hp
      exact (cexp_posts_mem.mp (cer_posts_sub hp2)).2
    have hB : cleanupEmptyRooms (runMaintenance s now) now = runMaintenance s now := by
      apply cer_id
      intro r hr
      have hr2 : r ∈ (cleanupEmptyRooms (cleanupExpiredPosts s now) now).db.rooms := hr
      exact (cer_rooms_mem hr2).2
    show sweepOrphanUploads
        (cleanupEmptyRooms (cleanupExpiredPosts (runMaintenance s now) now) now) now
      = runMaintenance s now
    rw [hA, hB]
    exact sweep_idem (cleanupEmptyRooms (cleanupExpiredPosts s now) now) now
  · have hA : cleanupExpiredPosts (runMaintenanceNR s now) now = runMaintenanceNR s now := by
      apply cexp_id
      intro p hp
      have hp2 : p ∈ (cleanupExpiredPosts s now).db.posts := hp
      exact (cexp_posts_mem.mp hp2).2
    show sweepOrphanUploads (cleanupExpiredPosts (runMaintenanceNR s now) now) now
      = runMaintenanceNR s now
    rw [hA]
    exact sweep_idem (cleanupExpiredPosts s now) now

/-! ## Claim C1 -/

theorem listPosts_ok_mem {s : St} {roomId : Option String} {now : Int}
    {out : List PublicPost} {s2 : St}
    (h : listPosts s roomId now = (Except.ok out, s2)) {q : PublicPost} (hq : q ∈ out) :
    ∃ p ∈ (cleanupEmptyRooms (cleanupExpiredPosts s now) now).db.posts,
      toPublic p = q := by
  unfold listPosts at h
  cases roomId with
  | none =>
    rw [Prod.mk.injEq] at h
    have h1 := h.1
    rw [Except.ok.injEq] at h1
    rw [← h1] at hq
    rcases List.mem_map.mp hq with ⟨p, hp, hpq⟩
    exact ⟨p, List.mem_of_mem_filter hp, hpq⟩
  | some rid =>
    dsimp only at h
    by_cases hb :
        (getRoomById (cleanupEmptyRooms (cleanupExpiredPosts s now) now).db rid).isSome
    · rw [if_pos hb, Prod.mk.injEq] at h
      have h1 := h.1
      rw [Except.ok.injEq] at h1
      rw [← h1] at hq
      rcases List.mem_map.mp hq with ⟨p, hp, hpq⟩
      exact ⟨p, List.mem_of_mem_filter hp, hpq⟩
    · rw [if_neg hb, Prod.mk.injEq] at h
      exact absurd h.1 (by simp)

/-- **C1.** Expiry is inclusive at the boundary: `cleanupExpiredPosts`
keeps a post iff `expires_at > now` (so a post with `expires_at = now`
is removed), every post a successful `listPosts` returns satisfies
`expires_at > now`, and the sqlite variant's active-post query likewise
returns only posts with `expires_at > now`. -/
theorem claim_C1_expiry_inclusive (s : St) (now : Int) :
    (∀ p ∈ s.db.posts,
      (p ∈ (cleanupExpiredPosts s now).db.posts ↔ p.expires_at > now)) ∧
    (∀ (roomId : Option String) (out : List PublicPost) (s2 : St),
      listPosts s roomId now = (Except.ok out, s2) →
      ∀ q ∈ out, q.expires_at > now) ∧
    (∀ posts : List SqlPost, ∀ q ∈ sqlActivePosts posts now, q.expires_at > now) := by
  refine ⟨?_, ?_, ?_⟩
  · intro p hp
    constructor
    · intro h
      exact (cexp_posts_mem.mp h).2
    · intro h
      exact cexp_posts_mem.mpr ⟨hp, h⟩
  · intro roomId out s2 h q hq
    rcases listPosts_ok_mem h hq with ⟨p, hp, hpq⟩
    have he : p.expires_at > now := (cexp_posts_mem.mp (cer_posts_sub hp)).2
    rw [← hpq]
    exact he
  · intro posts q hq
    have := List.mem_filter.mp hq
    simpa using this.2

/-! ## Claim C3 -/

/-- **C3.** Cascade completeness: if a room is classified dead by the
code's removal condition (`roomDead`, see C6 for the exact boundary) at
the time `runMaintenance` runs, then afterwards no post carrying that
room's id remains in the snapshot, no room with that id remains, and the
media file of every post of that room (expired or active) is gone from
the uploads directory. -/
theorem claim_C3_cascade_complete (s : St) (now : Int) (r : Room)
    (hr : r ∈ s.db.rooms) (hd : roomDead now r = true) :
    (∀ p ∈ (runMaintenance s now).db.posts, p.room_id ≠ some r.id) ∧
    (∀ r2 ∈ (runMaintenance s now).db.rooms, r2.id ≠ r.id) ∧
    (∀ p ∈ s.db.posts, p.room_id = some r.id →
      ∀ n, postImageTarget p = some n →
        ∀ f ∈ (runMaintenance s now).files, f.name ≠ n) := by
  have hr1 : r ∈ (cleanupExpiredPosts s now).db.rooms := by
    rw [cexp_rooms]; exact hr
  refine ⟨?_, ?_, ?_⟩
  · intro p hp
    have hp2 : p ∈ (cleanupEmptyRooms (cleanupExpiredPosts s now) now).db.posts := hp
    exact cer_posts_dead_gone hr1 hd p hp2
  · intro r2 h2
    have h3 : r2 ∈ (cleanupEmptyRooms (cleanupExpiredPosts s now) now).db.rooms := h2
    exact cer_rooms_dead_gone hr1 hd r2 h3
  · intro p hp hrid n ht f hf
    have hf2 : f ∈ (cleanupEmptyRooms (cleanupExpiredPosts s now) now).files :=
      (sweep_files_mem.mp hf).1
    by_cases hle : p.expires_at ≤ now
    · exact cexp_files_kill hp hle ht f (cer_files_sub hf2)
    · have hp1 : p ∈ (cleanupExpiredPosts s now).db.posts :=
        cexp_posts_mem.mpr ⟨hp, lt_of_not_ge hle⟩
      exact cer_files_dead_kill hr1 hd hp1 hrid ht f hf2

/-! ## Claim C6 (corrected: the room-death boundary is strict) -/

/-- **C6, counterexample.** At the exact boundary
`now - lastActiveAt = grace` the claim (and the spec invariant
`dead iff now - lastActiveAt >= grace`) says the room is dead and
removed, but `cleanupEmptyRooms` uses strict `<` and keeps it: with
`lastActiveAt = 100`, `grace = 60000`, `now = 60100` the maintenance
pass leaves the room untouched. -/
theorem claim_C6_counterexample :
    60100 - effLastActive ⟨"r", none, 0, some 100⟩ ≥ ROOM_EMPTY_GRACE_MS ∧
    roomDead 60100 ⟨"r", none, 0, some 100⟩ = false ∧
    (runMaintenance ⟨⟨[], [⟨"r", none, 0, some 100⟩]⟩, []⟩ 60100).db.rooms
      = [⟨"r", none, 0, some 100⟩] := by
  refine ⟨by decide, by decide, by decide⟩

/-- **C6, amended.** A room is classified dead — and all rooms with its
id are removed by the maintenance pass — iff
`effLastActive + grace < now` (strictly); at the exact boundary
`now - effLastActive = grace` the room is still alive and, when room ids
are unique, survives the pass. -/
theorem claim_C6_room_death_strict (s : St) (now : Int) (r : Room)
    (hr : r ∈ s.db.rooms)
    (hnodup : (s.db.rooms.map Room.id).Nodup) :
    (roomDead now r = true ↔ effLastActive r + ROOM_EMPTY_GRACE_MS < now) ∧
    (roomDead now r = true → ∀ r2 ∈ (runMaintenance s now).db.rooms, r2.id ≠ r.id) ∧
    (roomDead now r = false → r ∈ (runMaintenance s now).db.rooms) := by
  have hr1 : r ∈ (cleanupExpiredPosts s now).db.rooms := by
    rw [cexp_rooms]; exact hr
  refine ⟨by simp [roomDead], ?_, ?_⟩
  · intro hd r2 h2
    have h3 : r2 ∈ (cleanupEmptyRooms (cleanupExpiredPosts s now) now).db.rooms := h2
    exact cer_rooms_dead_gone hr1 hd r2 h3
  · intro halive
    show r ∈ (cleanupEmptyRooms (cleanupExpiredPosts s now) now).db.rooms
    refine cer_rooms_keep hr1 ?_
    intro x hx hdx hid
    rw [cexp_rooms] at hx
    have hxr : x = r := List.inj_on_of_nodup_map hnodup hx hr hid.symm
    rw [hxr, halive] at hdx
    exact Bool.false_ne_true hdx

/-! ## Claim C4 (corrected: the cleanup can remove the post first) -/

def c4post : Post :=
  ⟨"p1", some "r1", "hi", some "/uploads/a.png", some "a.png", "SECRET", 0, 1000000000⟩

def c4state : St := ⟨⟨[c4post], [⟨"r1", none, 0, some 10⟩]⟩, [⟨"a.png", 0⟩]⟩

/-- **C4, counterexample.** A post that exists and is active
(`expires_at > now`) at call time, deleted with a wrong token, does not
always yield ForbiddenError: if its room is dead, the cleanup that
`DELETE /posts/:id` runs first cascades the post away, the handler
answers NotFoundError, and the post's media file has been deleted —
contradicting every conclusion of the claim. -/
theorem claim_C4_counterexample :
    c4post ∈ c4state.db.posts ∧ c4post.id = "p1" ∧
    c4post.expires_at > 70011 ∧ c4post.delete_token ≠ "WRONG" ∧
    (deletePost c4state "p1" "WRONG" 70011).1
      = Except.error (ApiError.notFound "Not found") ∧
    (deletePost c4state "p1" "WRONG" 70011).2.files = [] := by
  exact ⟨by decide, by decide, by decide, by decide, by rfl, by rfl⟩

/-- **C4, amended.** If a post with the requested id exists, is active,
its room (when it has one) is not classified dead at call time, and ids
and media references are unique (no other post shares its id or its
media file — the server's nanoid/collision-resistant naming invariant),
then deleting with a wrong token yields ForbiddenError, the persisted
snapshot is unchanged (the handler returns before `writeDb`), and the
post's media file is not deleted. -/
theorem claim_C4_wrong_token_forbidden (s : St) (id token : String) (now : Int)
    (p : Post)
    (hp : p ∈ s.db.posts) (hid : p.id = id)
    (huniq : ∀ q ∈ s.db.posts, q.id = id → q = p)
    (hactive : p.expires_at > now)
    (hroom : ∀ rid, p.room_id = some rid →
      ∀ x ∈ s.db.rooms, roomDead now x = true → x.id ≠ rid)
    (htok : p.delete_token ≠ token)
    (hmedia : ∀ q ∈ s.db.posts, q ≠ p → ∀ n, postImageTarget p = some n →
      postImageTarget q ≠ some n) :
    (deletePost s id token now).1 = Except.error (ApiError.forbidden "Invalid token") ∧
    (deletePost s id token now).2.db = s.db ∧
    (∀ n, postImageTarget p = some n →
      ∀ f ∈ s.files, f.name = n → f ∈ (deletePost s id token now).2.files) := by
  have hp1 : p ∈ (cleanupExpiredPosts s now).db.posts :=
    cexp_posts_mem.mpr ⟨hp, hactive⟩
  have hroomkeep : ∀ x ∈ (cleanupExpiredPosts s now).db.rooms,
      roomDead now x = true → p.room_id ≠ some x.id := by
    intro x hx hdx
    rw [cexp_rooms] at hx
    cases hrid : p.room_id with
    | none => simp
    | some rid =>
      intro hc
      injection hc with hc2
      exact hroom rid hrid x hx hdx hc2.symm
  have hp2 : p ∈ (cleanupEmptyRooms (cleanupExpiredPosts s now) now).db.posts :=
    cer_posts_keep hp1 hroomkeep
  have hfind : (cleanupEmptyRooms (cleanupExpiredPosts s now) now).db.posts.find?
      (fun q => q.id = id) = some p := by
    cases hf : (cleanupEmptyRooms (cleanupExpiredPosts s now) now).db.posts.find?
        (fun q => q.id = id) with
    | none =>
      exfalso
      have := List.find?_eq_none.mp hf p hp2
      simp [hid] at this
    | some q =>
      have hqpred : q.id = id := by
        have := List.find?_some hf
        simpa using this
      have hqmem := List.mem_of_find?_eq_some hf
      have hqorig : q ∈ s.db.posts :=
        (cexp_posts_mem.mp (cer_posts_sub hqmem)).1
      rw [huniq q hqorig hqpred]
  have hres : deletePost s id token now
      = (Except.error (ApiError.forbidden "Invalid token"),
          ⟨s.db, (cleanupEmptyRooms (cleanupExpiredPosts s now) now).files⟩) := by
    unfold deletePost
    dsimp only
    rw [hfind]
    dsimp only
    rw [if_pos htok]
  refine ⟨by rw [hres], by rw [hres], ?_⟩
  intro n ht f hf hname
  rw [hres]
  show f ∈ (cleanupEmptyRooms (cleanupExpiredPosts s now) now).files
  have hf1 : f ∈ (cleanupExpiredPosts s now).files := by
    refine cexp_files_keep hf ?_
    intro q hq hqe
    have hqp : q ≠ p := by
      intro he
      rw [he] at hqe
      exact absurd hactive (not_lt.mpr hqe)
    rw [hname]
    exact hmedia q hq hqp n ht
  refine cer_files_keep hf1 ?_
  intro q hq hqt x hx hdx
  have hqorig : q ∈ s.db.posts := (cexp_posts_mem.mp hq).1
  have hqp : q = p := by
    by_contra hne
    rw [hname] at hqt
    exact hmedia q hqorig hne n ht hqt
  rw [hqp]
  cases hrid : p.room_id with
  | none => simp
  | some rid =>
    intro hc
    injection hc with hc2
    rw [cexp_rooms] at hx
    exact hroom rid hrid x hx hdx hc2.symm

/-! ## Claim C5 (corrected: the sqlite variant checks the token first) -/

def c5sqlPost : SqlPost := ⟨"a1", "hello", "tok16", 0, 5⟩

/-- **C5, counterexample.** In the sqlite variant (part_001) no
maintenance pass runs inside the delete handler; an expired post
(`expires_at <= now`) still present in the table is looked up, the token
is compared *first*, and a wrong token yields ForbiddenError — not the
NotFoundError the claim promises for every variant.  (With the right
token the same handler answers a 403 "Post expired" instead.) -/
theorem claim_C5_counterexample :
    c5sqlPost.expires_at ≤ 10 ∧
    (sqlDeletePost [c5sqlPost] "a1" "WRONG" 10).1
      = Except.error (ApiError.forbidden "Invalid token") ∧
    (sqlDeletePost [c5sqlPost] "a1" "tok16" 10).1
      = Except.error (ApiError.forbidden "Post expired") := by
  exact ⟨by decide, by rfl, by rfl⟩

/-- **C5, amended.** In the variants whose delete handler runs the
cleanup before the lookup — `src/server.js` (`deletePost`) and part_000
(`deletePostNR`) — a delete call made when every post carrying the
requested id is already expired (`expiresAt <= now`) answers
NotFoundError regardless of the supplied token, because the cleanup
removes those posts before the lookup. -/
theorem claim_C5_expired_delete_not_found (s : St) (id token : String) (now : Int)
    (hexp : ∀ p ∈ s.db.posts, p.id = id → p.expires_at ≤ now) :
    (deletePost s id token now).1 = Except.error (ApiError.notFound "Not found") ∧
    (deletePost s id token now).2.db = s.db ∧
    (deletePostNR s id token now).1 = Except.error (ApiError.notFound "Not found") ∧
    (deletePostNR s id token now).2.db = s.db := by
  have hfind : (cleanupEmptyRooms (cleanupExpiredPosts s now) now).db.posts.find?
      (fun q => q.id = id) = none := by
    rw [List.find?_eq_none]
    intro q hq
    have h1 := cexp_posts_mem.mp (cer_posts_sub hq)
    simp only [decide_eq_true_eq]
    intro hqid
    exact absurd h1.2 (not_lt.mpr (hexp q h1.1 hqid))
  have hfindNR : (cleanupExpiredPosts s now).db.posts.find?
      (fun q => q.id = id) = none := by
    rw [List.find?_eq_none]
    intro q hq
    have h1 := cexp_posts_mem.mp hq
    simp only [decide_eq_true_eq]
    intro hqid
    exact absurd h1.2 (not_lt.mpr (hexp q h1.1 hqid))
  have hres : deletePost s id token now
      = (Except.error (ApiError.notFound "Not found"),
          ⟨s.db, (cleanupEmptyRooms (cleanupExpiredPosts s now) now).files⟩) := by
    unfold deletePost
    dsimp only
    rw [hfind]
  have hresNR : deletePostNR s id token now
      = (Except.error (ApiError.notFound "Not found"),
          ⟨s.db, (cleanupExpiredPosts s now).files⟩) := by
    unfold deletePostNR
    dsimp only
    rw [hfindNR]
  exact ⟨by rw [hres], by rw [hres], by rw [hresNR], by rw [hresNR]⟩

/-! ## Claim C7 -/

/-- **C7.** A create-post request that passes the body validations
(non-empty trimmed content or an attached file, length ≤ 500, valid
TTL — prerequisites for reaching the room check) and whose resolved
`roomId` names no live room (every room with that id is classified dead
at call time, which also covers an absent id) fails with NotFoundError,
leaves the persisted snapshot unchanged (no post appended, no
`lastActiveAt` touched — the handler returns before `writeDb`), and the
media file already stored for the request is deleted from the uploads
directory. -/
theorem claim_C7_dead_room_create (s : St) (inp : CreateInput) (now : Int)
    (newId newToken : String) (rid : String)
    (hrid : resolveRoomId inp.roomId = some rid)
    (hcontent : ¬(jsTrim inp.content = "" ∧ inp.file = none))
    (hlen : (jsTrim inp.content).length ≤ 500)
    (httl : ∃ t, resolveTtl inp.ttl = some t)
    (hfile : inp.file ≠ some "")
    (hdead : ∀ x ∈ s.db.rooms, x.id = rid → roomDead now x = true) :
    (createPost s inp now newId newToken).1
      = Except.error (ApiError.notFound "Room not found") ∧
    (createPost s inp now newId newToken).2.db = s.db ∧
    (∀ f ∈ (createPost s inp now newId newToken).2.files, inp.file ≠ some f.name) := by
  obtain ⟨t, ht⟩ := httl
  have hlookup : getRoomById (cleanupEmptyRooms (cleanupExpiredPosts s now) now).db rid
      = none := by
    unfold getRoomById
    rw [List.find?_eq_none]
    intro x hx
    rcases cer_rooms_mem hx with ⟨hx1, hx2⟩
    rw [cexp_rooms] at hx1
    simp only [decide_eq_true_eq]
    intro hxid
    rw [hdead x hx1 hxid] at hx2
    exact Bool.false_ne_true hx2.symm
  have hres : createPost s inp now newId newToken
      = (Except.error (ApiError.notFound "Room not found"),
          ⟨s.db, unlinkOptFile
            (cleanupEmptyRooms (cleanupExpiredPosts s now) now).files inp.file⟩) := by
    unfold createPost
    dsimp only
    rw [if_neg hcontent, if_neg (not_lt.mpr hlen), ht]
    dsimp only
    rw [hrid]
    dsimp only
    rw [hlookup]
  refine ⟨by rw [hres], by rw [hres], ?_⟩
  intro f hf
  rw [hres] at hf
  cases hio : inp.file with
  | none => simp
  | some n =>
    rw [hio] at hf
    have hn : ¬(n = "") := by
      intro he
      exact hfile (by rw [hio, he])
    unfold unlinkOptFile at hf
    dsimp only at hf
    rw [if_neg hn] at hf
    have := (List.mem_filter.mp hf).2
    simp only [decide_eq_true_eq] at this
    intro hc
    injection hc with hc2
    exact this hc2.symm

/-! ## Claim C8 (corrected: dotfiles are skipped; the cleanup phases
also delete files) -/

def c8post : Post := ⟨"pe", none, "x", some "/uploads/y.png", some "y.png", "t", 0, 5⟩

/-- **C8, counterexample.**  Two deviations from the claimed iff:
(a) an unreferenced dotfile strictly older than the threshold is *not*
deleted by the maintenance pass (the sweep skips names starting with
`.`); (b) a file younger than the threshold and referenced by no
*active* post *is* deleted by the pass when an expired post references
it — the expiry cleanup unlinks it regardless of age. -/
theorem claim_C8_counterexample :
    ((runMaintenance ⟨⟨[], []⟩, [⟨".old", 0⟩]⟩ 7200000).files = [⟨".old", 0⟩] ∧
      referencedNames ([] : List Post) = [] ∧ (7200000 : Int) - 0 > ONE_HOUR) ∧
    ((runMaintenance ⟨⟨[c8post], []⟩, [⟨"y.png", 90⟩]⟩ 100).files = [] ∧
      c8post.expires_at ≤ 100 ∧ (100 : Int) - 90 ≤ ONE_HOUR) := by
  exact ⟨⟨by decide, by decide, by decide⟩, ⟨by decide, by decide, by decide⟩⟩

theorem sweepDeletes_iff (refd : List String) (now : Int) (f : MFile) :
    sweepDeletes refd now f = true ↔
      f.name ≠ "" ∧ strStarts f.name "." = false ∧
      f.name ∉ refd ∧ now - f.mtime > ONE_HOUR := by
  unfold sweepDeletes
  by_cases h1 : f.name = ""
  · rw [if_pos h1]
    simp [h1]
  · rw [if_neg h1]
    by_cases h2 : strStarts f.name "." = true
    · rw [if_pos h2]
      simp [h1, h2]
    · rw [if_neg h2]
      by_cases h3 : f.name ∈ refd
      · rw [if_pos h3]
        simp [h1, h3]
      · rw [if_neg h3]
        simp [h1, h3, Bool.eq_false_iff.mpr h2]

/-- **C8, amended.**  The file set after `runMaintenance` is the orphan
sweep applied to the state left by the two cleanup phases (which may
themselves unlink images of expired or cascaded posts regardless of
age), and the sweep deletes a file iff its name is non-empty, does not
start with `.`, is referenced by no post of the snapshot it is given,
and its age strictly exceeds `ONE_HOUR`; referenced, young, empty-named
or dot-prefixed files always survive the sweep. -/
theorem claim_C8_orphan_sweep (s : St) (now : Int) (f : MFile) :
    ((runMaintenance s now).files
      = (sweepOrphanUploads (cleanupEmptyRooms (cleanupExpiredPosts s now) now) now).files) ∧
    (f ∈ (sweepOrphanUploads s now).files ↔
      f ∈ s.files ∧ sweepDeletes (referencedNames s.db.posts) now f = false) ∧
    (sweepDeletes (referencedNames s.db.posts) now f = true ↔
      f.name ≠ "" ∧ strStarts f.name "." = false ∧
      f.name ∉ referencedNames s.db.posts ∧ now - f.mtime > ONE_HOUR) := by
  exact ⟨rfl, sweep_files_mem, sweepDeletes_iff _ now f⟩

/-! ## Claim C9 (corrected: heartbeat checks presence, not deadness) -/

theorem setLastActive_length (rooms : List Room) (id : String) (now : Int) :
    (setLastActive rooms id now).length = rooms.length := by
  induction rooms with
  | nil => rfl
  | cons r rs ih =>
    unfold setLastActive
    by_cases h : r.id = id
    · rw [if_pos h]
      rfl
    · rw [if_neg h]
      simpa using ih

theorem setLastActive_keep {rooms : List Room} {id : String} {now : Int} {r : Room}
    (hr : r ∈ rooms) (hne : r.id ≠ id) : r ∈ setLastActive rooms id now := by
  induction rooms with
  | nil => exact absurd hr (by simp)
  | cons x rs ih =>
    unfold setLastActive
    rcases List.mem_cons.mp hr with he | hm
    · subst he
      rw [if_neg hne]
      exact List.mem_cons_self r _
    · by_cases h : x.id = id
      · rw [if_pos h]
        exact List.mem_cons_of_mem _ hm
      · rw [if_neg h]
        exact List.mem_cons_of_mem _ (ih hm)

def c9room : Room := ⟨"r", none, 0, some 100⟩

/-- **C9, counterexample.**  A room whose grace period has long elapsed
(`roomDead` holds) but which has not yet been swept is *not* rejected:
the ping handler only checks presence, so it revives the dead room
(`lastActiveAt := now`) and answers success instead of the NotFoundError
the claim requires for dead rooms. -/
theorem claim_C9_counterexample :
    roomDead 1000000 c9room = true ∧
    heartbeatRoom ⟨⟨[], [c9room]⟩, []⟩ "r" 1000000
      = (Except.ok (), ⟨⟨[], [⟨"r", none, 0, some 1000000⟩]⟩, []⟩) := by
  exact ⟨by decide, by rfl⟩

/-- **C9, amended.**  `heartbeatRoom` answers NotFoundError iff no room
with the requested id is present in the snapshot (e.g. already removed
by an earlier maintenance pass); if one is present — even one whose
grace period has elapsed but which has not yet been swept — it answers
success and touches `lastActiveAt`.  It never removes or adds posts,
rooms, or media files, and every room with a different id is left
unchanged. -/
theorem claim_C9_heartbeat (s : St) (id : String) (now : Int) :
    ((∀ r ∈ s.db.rooms, r.id ≠ id) →
      heartbeatRoom s id now = (Except.error (ApiError.notFound "Room not found"), s)) ∧
    ((∃ r ∈ s.db.rooms, r.id = id) → (heartbeatRoom s id now).1 = Except.ok ()) ∧
    (heartbeatRoom s id now).2.db.posts = s.db.posts ∧
    (heartbeatRoom s id now).2.files = s.files ∧
    (heartbeatRoom s id now).2.db.rooms.length = s.db.rooms.length ∧
    (∀ r ∈ s.db.rooms, r.id ≠ id → r ∈ (heartbeatRoom s id now).2.db.rooms) := by
  cases hg : getRoomById s.db id with
  | none =>
    have hg2 : s.db.rooms.find? (fun r => r.id = id) = none := hg
    have hres : heartbeatRoom s id now
        = (Except.error (ApiError.notFound "Room not found"), s) := by
      unfold heartbeatRoom
      rw [hg]
    refine ⟨fun _ => hres, ?_, by rw [hres], by rw [hres], by rw [hres], ?_⟩
    · rintro ⟨r, hr, hrid⟩
      have := List.find?_eq_none.mp hg2 r hr
      simp [hrid] at this
    · intro r hr _
      rw [hres]
      exact hr
  | some r0 =>
    have hg2 : s.db.rooms.find? (fun r => r.id = id) = some r0 := hg
    have hres : heartbeatRoom s id now
        = (Except.ok (),
            ⟨⟨s.db.posts, setLastActive s.db.rooms id now⟩, s.files⟩) := by
      unfold heartbeatRoom
      rw [hg]
    refine ⟨?_, fun _ => by rw [hres], by rw [hres], by rw [hres], ?_, ?_⟩
    · intro hall
      exfalso
      have hr0 := List.mem_of_find?_eq_some hg2
      have hp := List.find?_some hg2
      simp only [decide_eq_true_eq] at hp
      exact hall r0 hr0 hp
    · rw [hres]
      exact setLastActive_length s.db.rooms id now
    · intro r hr hne
      rw [hres]
      exact setLastActive_keep hr hne

/-! ## Claim C10 -/

theorem head?_dropWhile_not {α : Type} (p : α → Bool) (l : List α) {c : α}
    (h : (l.dropWhile p).head? = some c) : p c = false := by
  induction l with
  | nil => exact absurd h (by simp)
  | cons a as ih =>
    rw [List.dropWhile_cons] at h
    by_cases hp : p a = true
    · rw [if_pos hp] at h
      exact ih h
    · rw [if_neg hp] at h
      have hc : a = c := by simpa using h
      rw [← hc]
      exact Bool.eq_false_iff.mpr hp

theorem reverse_dropWhile_head? {α : Type} (p : α → Bool) (m : List α) {c : α}
    (h : (m.dropWhile p).reverse.head? = some c) : m.reverse.head? = some c := by
  obtain ⟨pre, hpre⟩ := List.dropWhile_suffix (l := m) p
  have hrev : m.reverse = (m.dropWhile p).reverse ++ pre.reverse := by
    conv_lhs => rw [← hpre]
    rw [List.reverse_append]
  have hne : (m.dropWhile p).reverse ≠ [] := by
    intro he
    rw [he] at h
    exact absurd h (by simp)
  rw [hrev, List.head?_append_of_ne_nil _ hne]
  exact h

/-- The trimmed string has no whitespace at either end. -/
def noEdgeWs (s : String) : Prop :=
  (∀ c, s.data.head? = some c → isJsWs c = false) ∧
  (∀ c, s.data.reverse.head? = some c → isJsWs c = false)

theorem jsTrim_noEdgeWs (s : String) : noEdgeWs (jsTrim s) := by
  have hdata : (jsTrim s).data = jsTrimList s.data := rfl
  constructor
  · intro c h
    rw [hdata] at h
    unfold jsTrimList at h
    have h2 := reverse_dropWhile_head? isJsWs (s.data.dropWhile isJsWs).reverse h
    rw [List.reverse_reverse] at h2
    exact head?_dropWhile_not isJsWs s.data h2
  · intro c h
    rw [hdata] at h
    unfold jsTrimList at h
    rw [List.reverse_reverse] at h
    exact head?_dropWhile_not isJsWs (s.data.dropWhile isJsWs).reverse h

theorem jsTrim_of_all_ws {s : String}
    (h : ∀ c ∈ s.data, isJsWs c = true) : jsTrim s = "" := by
  have h1 : s.data.dropWhile isJsWs = [] := List.dropWhile_eq_nil_iff.mpr h
  show String.mk (jsTrimList s.data) = ""
  unfold jsTrimList
  rw [h1]
  rfl

/-- **C10.** `createPost` (and the part_000 handler `createPostNR`)
trims the content before validating and storing it: a request whose
content is whitespace-only and which attaches no image fails the
"must include text and/or an image" validation, and on success the post
stored at the head of the snapshot carries the trimmed content, which
has no leading or trailing whitespace. -/
theorem claim_C10_content_trimmed (s : St) (inp : CreateInput) (now : Int)
    (newId newToken : String) :
    ((∀ c ∈ inp.content.data, isJsWs c = true) → inp.file = none →
      (createPost s inp now newId newToken).1
        = Except.error (ApiError.validation "Post must include text and/or an image.")) ∧
    (∀ (resp : CreateResp) (s2 : St),
      createPost s inp now newId newToken = (Except.ok resp, s2) →
      ∃ p, s2.db.posts.head? = some p ∧ p.content = jsTrim inp.content ∧
        noEdgeWs p.content) ∧
    (∀ (content0 : String) (file : Option String),
      (∀ c ∈ content0.data, isJsWs c = true) → file = none →
      (createPostNR s content0 file now newId newToken).1
        = Except.error (ApiError.validation "Post must include text and/or an image.")) ∧
    (∀ (content0 : String) (file : Option String) (resp : CreateResp) (s2 : St),
      createPostNR s content0 file now newId newToken = (Except.ok resp, s2) →
      ∃ p, s2.db.posts.head? = some p ∧ p.content = jsTrim content0 ∧
        noEdgeWs p.content) := by
  refine ⟨?_, ?_, ?_, ?_⟩
  · intro h1 h2
    have hres : createPost s inp now newId newToken
        = (Except.error (ApiError.validation "Post must include text and/or an image."), s) := by
      unfold createPost
      dsimp only
      rw [if_pos ⟨jsTrim_of_all_ws h1, h2⟩]
    rw [hres]
  · intro resp s2 h
    unfold createPost at h
    dsimp only at h
    by_cases hc1 : jsTrim inp.content = "" ∧ inp.file = none
    · rw [if_pos hc1] at h
      simp at h
    · rw [if_neg hc1] at h
      by_cases hc2 : (jsTrim inp.content).length > 500
      · rw [if_pos hc2] at h
        simp at h
      · rw [if_neg hc2] at h
        cases httl : resolveTtl inp.ttl with
        | none =>
          rw [httl] at h
          dsimp only at h
          simp at h
        | some t =>
          rw [httl] at h
          dsimp only at h
          cases hrid : resolveRoomId inp.roomId with
          | some rid =>
            rw [hrid] at h
            dsimp only at h
            cases hg : getRoomById
                (cleanupEmptyRooms (cleanupExpiredPosts s now) now).db rid with
            | none =>
              rw [hg] at h
              simp at h
            | some r0 =>
              rw [hg] at h
              dsimp only at h
              rw [Prod.mk.injEq] at h
              refine ⟨⟨newId, some rid, jsTrim inp.content,
                  inp.file.map (fun n => uploadsUrlBase ++ n), inp.file, newToken,
                  now, now + t * ONE_MINUTE⟩, ?_, rfl, jsTrim_noEdgeWs inp.content⟩
              rw [← h.2]
              rfl
          | none =>
            rw [hrid] at h
            dsimp only at h
            rw [Prod.mk.injEq] at h
            refine ⟨⟨newId, none, jsTrim inp.content,
                inp.file.map (fun n => uploadsUrlBase ++ n), inp.file, newToken,
                now, now + t * ONE_MINUTE⟩, ?_, rfl, jsTrim_noEdgeWs inp.content⟩
            rw [← h.2]
            rfl
  · intro content0 file h1 h2
    have hres : createPostNR s content0 file now newId newToken
        = (Except.error (ApiError.validation "Post must include text and/or an image."), s) := by
      unfold createPostNR
      dsimp only
      rw [if_pos ⟨jsTrim_of_all_ws h1, h2⟩]
    rw [hres]
  · intro content0 file resp s2 h
    unfold createPostNR at h
    dsimp only at h
    by_cases hc1 : jsTrim content0 = "" ∧ file = none
    · rw [if_pos hc1] at h
      simp at h
    · rw [if_neg hc1] at h
      by_cases hc2 : (jsTrim content0).length > 500
      · rw [if_pos hc2] at h
        simp at h
      · rw [if_neg hc2] at h
        rw [Prod.mk.injEq] at h
        refine ⟨⟨newId, none, jsTrim content0,
            file.map (fun n => uploadsUrlBase ++ n), file, newToken,
            now, now + ONE_HOUR⟩, ?_, rfl, jsTrim_noEdgeWs content0⟩
        rw [← h.2]
        rfl

/-! ## Witnesses: each claim theorem applied at a concrete input -/

def c1post : Post := ⟨"a", none, "x", none, none, "t", 0, 5⟩

def c1state : St := ⟨⟨[c1post], []⟩, []⟩

theorem claim_C1_witness :
    c1post ∈ (cleanupExpiredPosts c1state 5).db.posts ↔ c1post.expires_at > 5 :=
  (claim_C1_expiry_inclusive c1state 5).1 c1post (by decide)

def c2state : St := ⟨⟨[], []⟩, [⟨"f.png", 0⟩]⟩

theorem claim_C2_witness :
    runMaintenance (runMaintenance c2state 5) 5 = runMaintenance c2state 5 :=
  (claim_C2_maintenance_idempotent c2state 5).1

def c3post : Post :=
  ⟨"p3", some "r3", "hi", some "/uploads/c.png", some "c.png", "tok", 0, 1000000000⟩

def c3room : Room := ⟨"r3", none, 0, some 10⟩

def c3state : St := ⟨⟨[c3post], [c3room]⟩, [⟨"c.png", 0⟩]⟩

theorem claim_C3_witness :
    (runMaintenance c3state 70011).db.posts.filter
        (fun p => p.room_id = some c3room.id) = [] ∧
    (runMaintenance c3state 70011).db.rooms.filter
        (fun r2 => r2.id = c3room.id) = [] ∧
    (runMaintenance c3state 70011).files.filter
        (fun f => f.name = "c.png") = [] := by
  obtain ⟨h1, h2, h3⟩ :=
    claim_C3_cascade_complete c3state 70011 c3room (by decide) (by decide)
  refine ⟨?_, ?_, ?_⟩
  · rw [List.filter_eq_nil_iff]
    intro p hp
    simpa using h1 p hp
  · rw [List.filter_eq_nil_iff]
    intro r2 hr2
    simpa using h2 r2 hr2
  · rw [List.filter_eq_nil_iff]
    intro f hf
    simpa using h3 c3post (by decide) (by decide) "c.png" (by decide) f hf

def c4wpost : Post :=
  ⟨"q1", none, "hi", some "/uploads/b.png", some "b.png", "TOK", 0, 99999⟩

def c4wstate : St := ⟨⟨[c4wpost], []⟩, [⟨"b.png", 1⟩]⟩

theorem claim_C4_witness :
    (deletePost c4wstate "q1" "BAD" 5).1
      = Except.error (ApiError.forbidden "Invalid token") ∧
    (deletePost c4wstate "q1" "BAD" 5).2.db = c4wstate.db ∧
    (∀ n, postImageTarget c4wpost = some n →
      ∀ f ∈ c4wstate.files, f.name = n → f ∈ (deletePost c4wstate "q1" "BAD" 5).2.files) :=
  claim_C4_wrong_token_forbidden c4wstate "q1" "BAD" 5 c4wpost (by decide) (by decide)
    (by decide) (by decide)
    (by intro rid h; exact Option.noConfusion h)
    (by decide)
    (by
      intro q hq hne n ht
      exact absurd (List.mem_singleton.mp (show q ∈ [c4wpost] from hq)) hne)

def c5wstate : St := ⟨⟨[⟨"e1", none, "x", none, none, "t", 0, 5⟩], []⟩, []⟩

theorem claim_C5_witness :
    (deletePost c5wstate "e1" "whatever" 10).1
      = Except.error (ApiError.notFound "Not found") ∧
    (deletePost c5wstate "e1" "whatever" 10).2.db = c5wstate.db ∧
    (deletePostNR c5wstate "e1" "whatever" 10).1
      = Except.error (ApiError.notFound "Not found") ∧
    (deletePostNR c5wstate "e1" "whatever" 10).2.db = c5wstate.db :=
  claim_C5_expired_delete_not_found c5wstate "e1" "whatever" 10 (by decide)

def c6room : Room := ⟨"r6", none, 0, some 100⟩

def c6state : St := ⟨⟨[], [c6room]⟩, []⟩

def c6roomB : Room := ⟨"rB6", none, 0, some 100⟩

def c6stateB : St := ⟨⟨[], [c6roomB]⟩, []⟩

theorem claim_C6_witness :
    (runMaintenance c6state 70011).db.rooms.filter
        (fun r2 => r2.id = c6room.id) = [] ∧
    c6roomB ∈ (runMaintenance c6stateB 60100).db.rooms := by
  constructor
  · rw [List.filter_eq_nil_iff]
    intro r2 hr2
    simpa using
      (claim_C6_room_death_strict c6state 70011 c6room (by decide) (by decide)).2.1
        (by decide) r2 hr2
  · exact (claim_C6_room_death_strict c6stateB 60100 c6roomB (by decide) (by decide)).2.2
      (by decide)

def c7inp : CreateInput := ⟨"hello", some "rX", .absent, none⟩

def c7state : St := ⟨⟨[], [⟨"rX", none, 0, some 10⟩]⟩, []⟩

theorem claim_C7_witness :
    (createPost c7state c7inp 70011 "nid" "ntok").1
      = Except.error (ApiError.notFound "Room not found") ∧
    (createPost c7state c7inp 70011 "nid" "ntok").2.db = c7state.db :=
  ⟨(claim_C7_dead_room_create c7state c7inp 70011 "nid" "ntok" "rX" (by decide) (by decide)
      (by decide) ⟨60, rfl⟩ (by decide) (by decide)).1,
   (claim_C7_dead_room_create c7state c7inp 70011 "nid" "ntok" "rX" (by decide) (by decide)
      (by decide) ⟨60, rfl⟩ (by decide) (by decide)).2.1⟩

def c8wstate : St := ⟨⟨[], []⟩, [⟨"w.png", 0⟩]⟩

theorem claim_C8_witness :
    ⟨"w.png", 0⟩ ∈ (sweepOrphanUploads c8wstate 5).files ↔
      (⟨"w.png", 0⟩ : MFile) ∈ c8wstate.files ∧
      sweepDeletes (referencedNames c8wstate.db.posts) 5 ⟨"w.png", 0⟩ = false :=
  (claim_C8_orphan_sweep c8wstate 5 ⟨"w.png", 0⟩).2.1

def c9wstate : St := ⟨⟨[], [⟨"rA", none, 0, some 50⟩]⟩, []⟩

theorem claim_C9_witness :
    heartbeatRoom c9wstate "rB" 99
      = (Except.error (ApiError.notFound "Room not found"), c9wstate) :=
  (claim_C9_heartbeat c9wstate "rB" 99).1 (by decide)

def c10inp : CreateInput := ⟨"  ", none, .absent, none⟩

def c10state : St := ⟨⟨[], []⟩, []⟩

theorem claim_C10_witness :
    (createPost c10state c10inp 3 "i" "t").1
      = Except.error (ApiError.validation "Post must include text and/or an image.") :=
  (claim_C10_content_trimmed c10state c10inp 3 "i" "t").1 (by decide) rfl
